import Mathlib

/-!
Verification development for the studdy-buddy backend
(`src/backend/src`): PDF ingestion, text chunking, vector store
adapter, and RAG orchestration.  Python dictionaries with
heterogeneous values are embedded as association lists over a small
`Value` type that mirrors the Python values the code manipulates
(None, int, str); Python's `dict.get`, `dict.__setitem__`, the
`\x7b**a, **b\x7d` merge and truthiness tests are embedded explicitly so
that key-presence versus None-valued keys is preserved.
-/

set_option autoImplicit false

namespace StuddyBuddy

/-- A Python value as used by this codebase: `None`, an `int`, or a `str`. -/
inductive Value where
  | none
  | int (i : Int)
  | str (s : String)
  deriving DecidableEq, Repr

/-- Python truthiness of a `Value`: `None` is falsy, `0` is falsy, `""` is falsy. -/
def Value.truthy : Value → Bool
  | .none => false
  | .int i => i != 0
  | .str s => s != ""

/-- Python `str(v)` as used in f-strings by this codebase. -/
def pyStr : Value → String
  | .none => "None"
  | .int i => toString i
  | .str s => s

/-- A Python dict embedded as an association list in insertion order. -/
abbrev Dict := List (String × Value)

/-- Python `d.get(k)` / `d[k]` lookup: first (unique) binding of the key. -/
def pyGet : Dict → String → Option Value
  | [], _ => Option.none
  | (k0, v0) :: rest, k => if k0 = k then some v0 else pyGet rest k

/-- Python `d[k] = v`: overwrite the existing binding, else append. -/
def Dict.set : Dict → String → Value → Dict
  | [], k, v => [(k, v)]
  | (k0, v0) :: rest, k, v =>
      if k0 = k then (k, v) :: rest else (k0, v0) :: Dict.set rest k v

/-- Whether a key is present in the dict (regardless of its value). -/
def Dict.hasKey (d : Dict) (k : String) : Bool :=
  (pyGet d k).isSome

/-- Python dict merge `\x7b**base, **over\x7d`: entries of `over` overwrite `base`. -/
def dictMerge (base over : Dict) : Dict :=
  over.foldl (fun d kv => Dict.set d kv.1 kv.2) base

/-! ## Text chunker (`src/backend/src/text_chunker.py`) and configuration -/

/-- `Config.CHUNK_SIZE` from `src/backend/src/config.py`. -/
def Config.CHUNK_SIZE : Nat := 1000

/-- `Config.CHUNK_OVERLAP` from `src/backend/src/config.py`. -/
def Config.CHUNK_OVERLAP : Nat := 200

/-- Fixed-size overlapping windows, the coarsest granularity of the splitter:
fuel-based loop taking `chunkSize` characters and advancing by `step`. -/
def splitWindows : Nat → Nat → Nat → String → List String
  | 0, _, _, s => [s]
  | fuel + 1, chunkSize, step, s =>
      if s.length ≤ chunkSize then [s]
      else s.take chunkSize :: splitWindows fuel chunkSize step (s.drop step)

/-- Modelled from the spec: the chunker delegates splitting to the external
`RecursiveCharacterTextSplitter` of `langchain_text_splitters`, which is not
part of this repository's sources.  Per spec §4.1: empty page text yields no
pieces; text no longer than the configured chunk size yields exactly one piece
equal to the text; longer text is split recursively at preferred boundaries,
falling back to arbitrary character positions — modelled here as fixed-size
windows of `chunkSize` characters stepping by `chunkSize - chunkOverlap`. -/
def split_text (chunkSize chunkOverlap : Nat) (text : String) : List String :=
  if text = "" then []
  else if text.length ≤ chunkSize then [text]
  else splitWindows text.length chunkSize (chunkSize - chunkOverlap) text

/-- The splitter built by `TextChunker.__init__` with the default
`Config.CHUNK_SIZE` / `Config.CHUNK_OVERLAP` configuration. -/
def defaultSplit : String → List String :=
  split_text Config.CHUNK_SIZE Config.CHUNK_OVERLAP

/-- One extracted PDF page: `\x7b"page_number": ..., "text": ...\x7d`. -/
structure Page where
  page_number : Int
  text : String
  deriving DecidableEq, Repr

/-- One chunk produced by `TextChunker.chunk_pages`:
`\x7b"text": chunk, "metadata": chunk_metadata\x7d`. -/
structure Passage where
  text : String
  metadata : Dict
  deriving DecidableEq, Repr

/-- The `chunk_metadata` dict built inside `TextChunker.chunk_pages`:
`\x7b"page_number": page_number, "chunk_id": chunk_id, **(doc_metadata or \x7b\x7d)\x7d`.
Note the doc metadata is spread last, so its entries overwrite the two
chunk-level keys when the key names collide. -/
def mkChunkMeta (doc_metadata : Dict) (page_number : Int) (chunk_id : Nat) : Dict :=
  dictMerge [("page_number", Value.int page_number), ("chunk_id", Value.int chunk_id)]
    doc_metadata

/-- The inner loop of `TextChunker.chunk_pages`: one passage per split piece
of the page, incrementing the document-wide `chunk_id` counter. -/
def passagesOfPage (doc_metadata : Dict) (page_number : Int) :
    List String → Nat → List Passage
  | [], _ => []
  | t :: ts, cid =>
      { text := t, metadata := mkChunkMeta doc_metadata page_number cid }
        :: passagesOfPage doc_metadata page_number ts (cid + 1)

/-- The outer loop of `TextChunker.chunk_pages` over pages, threading the
`chunk_id` counter across page boundaries. -/
def chunkPagesGo (split : String → List String) (doc_metadata : Dict) :
    List Page → Nat → List Passage
  | [], _ => []
  | p :: rest, cid =>
      let cs := split p.text
      passagesOfPage doc_metadata p.page_number cs cid
        ++ chunkPagesGo split doc_metadata rest (cid + cs.length)

/-- `TextChunker.chunk_pages(pages, doc_metadata)` from
`src/backend/src/text_chunker.py`, parameterized by the text splitter the
chunker was constructed with (`doc_metadata or \x7b\x7d` handles the `None`
default). -/
def TextChunker.chunk_pages (split : String → List String)
    (pages : List Page) (doc_metadata : Option Dict) : List Passage :=
  chunkPagesGo split (doc_metadata.getD []) pages 0

/-! ## Vector store adapter (`src/backend/src/vector_store.py`)

The ChromaDB client is an external capability.  It is modelled as a
name-indexed in-memory store: `client.get_collection(name)` raises when the
name is absent (modelled as an `Option`-returning lookup), collections hold
the upserted passages, and `collection.query` is kept abstract as a
parameter since its ranking is computed by the external index. -/

/-- One passage as stored by the index: id, raw text, metadata. -/
structure StoredPassage where
  id : String
  text : String
  metadata : Dict
  deriving DecidableEq, Repr

/-- A chroma collection: the sequence of upserted passages. -/
structure CollectionData where
  passages : List StoredPassage
  deriving DecidableEq, Repr

/-- The persistent client state: named collections in creation order. -/
structure StoreState where
  collections : List (String × CollectionData)
  deriving DecidableEq, Repr

/-- Lookup in a name-keyed association list (`client.get_collection`). -/
def alistGet {α : Type} : List (String × α) → String → Option α
  | [], _ => Option.none
  | (k0, v0) :: rest, k => if k0 = k then some v0 else alistGet rest k

/-- Replace the value bound to an existing name, leaving other entries as is. -/
def alistUpdate {α : Type} : List (String × α) → String → α → List (String × α)
  | [], _, _ => []
  | (k0, v0) :: rest, k, v =>
      if k0 = k then (k, v) :: rest else (k0, v0) :: alistUpdate rest k v

/-- Drop the entry bound to a name (`client.delete_collection`, best-effort). -/
def alistRemove {α : Type} (l : List (String × α)) (k : String) : List (String × α) :=
  l.filter (fun kv => !(decide (kv.1 = k)))

/-- `VectorStore.create_collection(collection_name, replace)`:
optionally delete, then get-or-create (the `hnsw:space = cosine` collection
metadata configures the external index and carries no state modelled here). -/
def VectorStore.create_collection (st : StoreState) (collection_name : String)
    (replace : Bool) : StoreState :=
  let st0 : StoreState := if replace then ⟨alistRemove st.collections collection_name⟩ else st
  match alistGet st0.collections collection_name with
  | some _ => st0
  | Option.none => ⟨st0.collections ++ [(collection_name, ⟨[]⟩)]⟩

/-- The body of the `for i, chunk in enumerate(chunks)` loop of
`VectorStore.add_documents`: composite id `document_id + "_chunk_" + i`, the
chunk's own metadata copied and then overwritten with `document_id` and
`chunk_index`. -/
def prepared_entry (document_id : String) (i : Nat) (ch : Passage) : StoredPassage :=
  { id := document_id ++ "_chunk_" ++ toString i,
    text := ch.text,
    metadata :=
      Dict.set (Dict.set ch.metadata "document_id" (Value.str document_id))
        "chunk_index" (Value.int i) }

/-- The full enumeration loop of `VectorStore.add_documents`. -/
def prepared_entries (document_id : String) : List Passage → Nat → List StoredPassage
  | [], _ => []
  | ch :: rest, i => prepared_entry document_id i ch :: prepared_entries document_id rest (i + 1)

/-- `VectorStore.add_documents(collection_name, chunks, document_id)`.
Modelled from the spec for the external index write: `collection.add`
upserts the prepared ids, documents and metadatas into the collection,
modelled as appending them to the stored passages. -/
def VectorStore.add_documents (st : StoreState) (collection_name : String)
    (chunks : List Passage) (document_id : String) : StoreState :=
  let st1 := VectorStore.create_collection st collection_name false
  match alistGet st1.collections collection_name with
  | Option.none => st1
  | some c =>
      ⟨alistUpdate st1.collections collection_name
        ⟨c.passages ++ prepared_entries document_id chunks 0⟩⟩

/-- The raw result of the external `collection.query` call: one row per
query text (the code always passes exactly one query text). -/
structure RawQueryOutput where
  documents : List (List String)
  metadatas : List (List Dict)
  distances : List (List Value)
  ids : List (List String)

/-- The dictionary returned by `VectorStore.query`. -/
structure QueryResult where
  documents : List String
  metadatas : List Dict
  distances : List Value
  ids : List String
  deriving DecidableEq, Repr

/-- `VectorStore.query(collection_name, query_text, n_results, filter_dict)`:
a missing collection (the `get_collection` raise, caught by the code) returns
the empty result dictionary; otherwise the first row of each field of the
external query result, or `[]` when the field is empty/falsy. -/
def VectorStore.query
    (collQuery : CollectionData → String → Nat → Option Dict → RawQueryOutput)
    (st : StoreState) (collection_name query_text : String)
    (n_results : Nat) (filter_dict : Option Dict) : QueryResult :=
  match alistGet st.collections collection_name with
  | Option.none => { documents := [], metadatas := [], distances := [], ids := [] }
  | some c =>
      let results := collQuery c query_text n_results filter_dict
      { documents := results.documents.headD [],
        metadatas := results.metadatas.headD [],
        distances := results.distances.headD [],
        ids := results.ids.headD [] }

/-- Whether a stored passage's metadata `document_id` equals the given id —
the matching condition of the chroma `where=\x7b"document_id": document_id\x7d`
filter. -/
def passage_matches_document (p : StoredPassage) (document_id : String) : Bool :=
  decide (pyGet p.metadata "document_id" = some (Value.str document_id))

/-- Modelled from the spec: the external
`collection.delete(where=\x7b"document_id": ...\x7d)` call of chroma, which per
spec §4.2 "removes every passage whose metadata `document_id` equals the
given id". -/
def chromaDeleteWhere (c : CollectionData) (document_id : String) : CollectionData :=
  ⟨c.passages.filter (fun p => !(passage_matches_document p document_id))⟩

/-- `VectorStore.delete_document(collection_name, document_id)`: the whole
body is wrapped in `try/except`, so a missing collection or a failing
external delete (injected here through `delete_fails`) is logged and the
state is left unchanged. -/
def VectorStore.delete_document (delete_fails : Bool) (st : StoreState)
    (collection_name document_id : String) : StoreState :=
  match alistGet st.collections collection_name with
  | Option.none => st
  | some c =>
      if delete_fails then st
      else ⟨alistUpdate st.collections collection_name (chromaDeleteWhere c document_id)⟩

/-! ## RAG service (`src/backend/src/rag_service.py`) -/

/-- A LangChain chat message as built by the RAG service. -/
inductive Message where
  | system (content : String)
  | human (content : String)
  | ai (content : String)
  deriving DecidableEq, Repr

/-- One caller-supplied conversation history entry `\x7b"role", "content"\x7d`. -/
structure Turn where
  role : String
  content : String
  deriving DecidableEq, Repr

/-- The external text-generation capability: a blocking completion
(`llm.invoke(...).content`) and a streaming sequence of content fragments
(`chunk.content` for `chunk in llm.stream(...)`). -/
structure LLM where
  invokeContent : List Message → String
  streamChunks : List Message → List String

/-- Concatenation of a list of strings in order. -/
def concat_strings : List String → String
  | [] => ""
  | s :: rest => s ++ concat_strings rest

/-- The fixed system prompt of `RAGService.__init__`. -/
def system_prompt : String :=
  "You are a helpful AI study assistant. You answer questions based on the provided document context.\n\nGuidelines:\n- Answer questions accurately based on the provided context\n- If the context doesn\x27t contain enough information, say so\n- Cite page numbers when referencing specific information\n- Be concise but thorough\n- If asked about something not in the context, acknowledge the limitation"

/-- The loop of `RAGService.format_context` over `enumerate(context_chunks, 1)`:
`chunk.get("page_number", "N/A")` and `chunk.get("filename", "Unknown")`
default only when the key is absent, while `chunk["text"]` raises `KeyError`
when absent (modelled as the error case). -/
def format_context_parts : Nat → List Dict → Except String (List String)
  | _, [] => .ok []
  | i, c :: rest =>
      let page := (pyGet c "page_number").getD (Value.str "N/A")
      let filename := (pyGet c "filename").getD (Value.str "Unknown")
      match pyGet c "text" with
      | Option.none => .error "KeyError: text"
      | some t =>
          match format_context_parts (i + 1) rest with
          | .error e => .error e
          | .ok ps =>
              .ok (("[Source " ++ toString i ++ " - " ++ pyStr filename
                    ++ ", Page " ++ pyStr page ++ "]\n" ++ pyStr t) :: ps)

/-- `RAGService.format_context(context_chunks)`. -/
def RAGService.format_context (context_chunks : List Dict) : Except String String :=
  if context_chunks.isEmpty then .ok "No relevant context found in the documents."
  else
    match format_context_parts 1 context_chunks with
    | .error e => .error e
    | .ok parts => .ok (String.intercalate "\n\n---\n\n" parts)

/-- The user prompt f-string shared verbatim by `generate_answer` and
`generate_answer_stream`. -/
def build_prompt (context query : String) : String :=
  "Context from documents:\n\n" ++ context ++ "\n\n---\n\nQuestion: " ++ query
    ++ "\n\nAnswer the question based on the context above. If you reference specific information, mention the page number."

/-- One iteration of the history loop: `"user"` becomes a human message,
`"assistant"` an AI message, any other role is skipped. -/
def turn_to_message (t : Turn) : Option Message :=
  if t.role = "user" then some (Message.human t.content)
  else if t.role = "assistant" then some (Message.ai t.content)
  else Option.none

/-- The message-history construction shared verbatim by `generate_answer` and
`generate_answer_stream`: system prompt, then `conversation_history[-6:]`
filtered by role, then the current user prompt. -/
def build_messages (conversation_history : Option (List Turn)) (prompt : String) :
    List Message :=
  let hist := conversation_history.getD []
  Message.system system_prompt
    :: ((hist.drop (hist.length - 6)).filterMap turn_to_message ++ [Message.human prompt])

/-- One entry of the `sources` list (a dict literal with these four keys). -/
structure SourceEntry where
  document_id : Value
  filename : Value
  page_number : Value
  similarity : Value
  deriving DecidableEq, Repr

/-- The source dict appended for a kept chunk. -/
def mkSourceEntry (c : Dict) : SourceEntry :=
  { document_id := (pyGet c "document_id").getD Value.none,
    filename := (pyGet c "filename").getD Value.none,
    page_number := (pyGet c "page_number").getD Value.none,
    similarity := (pyGet c "similarity").getD Value.none }

/-- The dedup key `(chunk.get("document_id"), chunk.get("page_number"))`. -/
def chunk_source_key (c : Dict) : Value × Value :=
  ((pyGet c "document_id").getD Value.none, (pyGet c "page_number").getD Value.none)

/-- The source-extraction loop shared verbatim by `generate_answer` and
`generate_answer_stream`: `if key not in seen and chunk.get("page_number")` —
the second conjunct is Python truthiness of the page value. -/
def extract_sources_go (seen : List (Value × Value)) : List Dict → List SourceEntry
  | [] => []
  | c :: rest =>
      let key := chunk_source_key c
      if key ∉ seen ∧ ((pyGet c "page_number").getD Value.none).truthy = true then
        mkSourceEntry c :: extract_sources_go (key :: seen) rest
      else
        extract_sources_go seen rest

/-- The `sources` list built from the retrieved context chunks. -/
def RAGService.extract_sources (context_chunks : List Dict) : List SourceEntry :=
  extract_sources_go [] context_chunks

/-- The dictionary returned by `RAGService.generate_answer`. -/
structure AnswerResult where
  answer : String
  sources : List SourceEntry
  context_used : Nat
  deriving DecidableEq, Repr

/-- `RAGService.generate_answer(query, context_chunks, conversation_history)`. -/
def RAGService.generate_answer (llm : LLM) (query : String)
    (context_chunks : List Dict) (conversation_history : Option (List Turn)) :
    Except String AnswerResult :=
  match RAGService.format_context context_chunks with
  | .error e => .error e
  | .ok context =>
      let prompt := build_prompt context query
      let messages := build_messages conversation_history prompt
      let response := llm.invokeContent messages
      .ok { answer := response,
            sources := RAGService.extract_sources context_chunks,
            context_used := context_chunks.length }

/-- One element yielded by `generate_answer_stream`: a content fragment
`\x7b"type": "content", "data": ...\x7d` or the final sources payload
`\x7b"type": "sources", "data": \x7b"sources": ..., "context_used": ...\x7d\x7d`. -/
inductive StreamItem where
  | content (data : String)
  | sources (sources : List SourceEntry) (context_used : Nat)
  deriving DecidableEq, Repr

/-- The content text carried by a stream element (empty for the marker). -/
def stream_item_text : StreamItem → String
  | .content s => s
  | .sources _ _ => ""

/-- `RAGService.generate_answer_stream(...)`, the generator consumed to
exhaustion: one content element per non-empty (`if chunk.content:`) streamed
fragment, then the sources payload. -/
def RAGService.generate_answer_stream (llm : LLM) (query : String)
    (context_chunks : List Dict) (conversation_history : Option (List Turn)) :
    Except String (List StreamItem) :=
  match RAGService.format_context context_chunks with
  | .error e => .error e
  | .ok context =>
      let prompt := build_prompt context query
      let messages := build_messages conversation_history prompt
      let sources := RAGService.extract_sources context_chunks
      .ok (((llm.streamChunks messages).filter (fun c => c ≠ "")).map StreamItem.content
        ++ [StreamItem.sources sources context_chunks.length])

/-- Reference formulation of source reconciliation (the amended claim's
words): keep the first chunk per dedup key. -/
def dedup_first_by_key (seen : List (Value × Value)) : List Dict → List Dict
  | [] => []
  | c :: rest =>
      if chunk_source_key c ∈ seen then dedup_first_by_key seen rest
      else c :: dedup_first_by_key (chunk_source_key c :: seen) rest

/-- Reference formulation of the amended source-reconciliation claim:
drop chunks with a falsy page number, keep the first occurrence per
`(document_id, page_number)` pair in order, and map each kept chunk to its
source entry. -/
def sources_spec (context_chunks : List Dict) : List SourceEntry :=
  (dedup_first_by_key []
      (context_chunks.filter (fun c => ((pyGet c "page_number").getD Value.none).truthy))).map
    mkSourceEntry

/-! ## PDF parser and processor (`pdf_parser.py`, `pdf_processor.py`) -/

/-- The document handle returned by the external `fitz.open`: per-page
extracted text and the (possibly `None`) metadata mapping. -/
structure FitzDoc where
  pageTexts : List String
  metadata : Option Dict
  deriving DecidableEq, Repr

/-- External capabilities used by `PDFParser.extract_text`: the
`pdf_path.exists()` filesystem check and `fitz.open` (which may fail on an
unparsable file). -/
structure PdfEnv where
  file_exists : String → Bool
  fitz_open : String → Except String FitzDoc

/-- The dictionary returned by `PDFParser.extract_text`. -/
structure PdfData where
  text : String
  pages : List Page
  metadata : Dict
  num_pages : Nat
  deriving DecidableEq, Repr

/-- Index of the last occurrence of a character in a list, if any. -/
def lastIndexOfChar (c : Char) : List Char → Option Nat
  | [] => Option.none
  | x :: xs =>
      match lastIndexOfChar c xs with
      | some i => some (i + 1)
      | Option.none => if x = c then some 0 else Option.none

/-- Python `pathlib`: the final component of a path. -/
def pathName (p : String) : String :=
  match lastIndexOfChar '/' p.data with
  | some i => String.mk (p.data.drop (i + 1))
  | Option.none => p

/-- Python `pathlib.Path.stem`: the name with its suffix removed, where a
suffix exists only when the last dot sits strictly inside the name. -/
def pathStem (p : String) : String :=
  let n := pathName p
  match lastIndexOfChar '.' n.data with
  | some i => if 0 < i ∧ i < n.length - 1 then String.mk (n.data.take i) else n
  | Option.none => n

/-- The page loop of `PDFParser.extract_text`: 1-indexed page numbers in
source order. -/
def buildPages : List String → Nat → List Page
  | [], _ => []
  | t :: ts, i => { page_number := (i : Int) + 1, text := t } :: buildPages ts (i + 1)

/-- `PDFParser.extract_text(pdf_path)` from `src/backend/src/pdf_parser.py`:
raises `FileNotFoundError` for a missing path, otherwise returns the pages,
the flattened metadata (each of the four keys defaulting to `""` via
`metadata.get(key, "")` on `doc.metadata or \x7b\x7d`) and the page count. -/
def PDFParser.extract_text (env : PdfEnv) (pdf_path : String) : Except String PdfData :=
  if env.file_exists pdf_path = false then
    .error ("PDF file not found: " ++ pdf_path)
  else
    match env.fitz_open pdf_path with
    | .error e => .error e
    | .ok doc =>
        let md := doc.metadata.getD []
        .ok { text := String.intercalate "\n\n" doc.pageTexts,
              pages := buildPages doc.pageTexts 0,
              metadata :=
                [("title", (pyGet md "title").getD (Value.str "")),
                 ("author", (pyGet md "author").getD (Value.str "")),
                 ("subject", (pyGet md "subject").getD (Value.str "")),
                 ("creator", (pyGet md "creator").getD (Value.str ""))],
              num_pages := doc.pageTexts.length }

/-- External collaborators of `PDFProcessor.process_pdf`: the parser's
environment, the vector store write (`add_documents`, which may raise on an
index failure), the current time, and the uploads directory path. -/
structure ProcEnv where
  pdf : PdfEnv
  vs_add : String → List Passage → String → Except String Unit
  now : String
  uploads_dir : String

/-- `document_id if document_id is not None else pdf_path.stem`. -/
def resolved_id (pdf_path : String) (document_id : Option String) : String :=
  document_id.getD (pathStem pdf_path)

/-- The `doc_metadata` dict literal built by `PDFProcessor.process_pdf`
(step 2).  Note `pdf_data["metadata"].get("title", pdf_path.stem)` defaults
only when the key is absent. -/
def built_doc_metadata (env : ProcEnv) (pdf_path : String)
    (document_id : Option String) (pdf_data : PdfData) : Dict :=
  [("document_id", Value.str (resolved_id pdf_path document_id)),
   ("filename", Value.str (pathName pdf_path)),
   ("title", (pyGet pdf_data.metadata "title").getD (Value.str (pathStem pdf_path))),
   ("author", (pyGet pdf_data.metadata "author").getD (Value.str "")),
   ("num_pages", Value.int pdf_data.num_pages),
   ("processed_at", Value.str env.now)]

/-- The chunks computed in step 3 of `PDFProcessor.process_pdf`. -/
def built_chunks (env : ProcEnv) (pdf_path : String) (document_id : Option String)
    (pdf_data : PdfData) : List Passage :=
  TextChunker.chunk_pages defaultSplit pdf_data.pages
    (some (built_doc_metadata env pdf_path document_id pdf_data))

/-- The result dictionary of a successful `process_pdf`. -/
structure ProcessResult where
  document_id : String
  filename : String
  num_pages : Nat
  num_chunks : Nat
  metadata : Dict
  collection : String
  status : String
  deriving DecidableEq, Repr

/-- `PDFProcessor.process_pdf(pdf_path, document_id, collection_name)` from
`src/backend/src/pdf_processor.py`: extract, build metadata, chunk, index,
then archive (`shutil.copy2` to `uploads/\x7bdocument_id\x7d.pdf`, skipped when
source and destination are the same path).  The second component records the
archive writes performed by the call; a raise from an earlier step
propagates as the error case with no archive write. -/
def PDFProcessor.process_pdf (env : ProcEnv) (pdf_path : String)
    (document_id : Option String) (collection_name : String) :
    Except String ProcessResult × List String :=
  let did := resolved_id pdf_path document_id
  match PDFParser.extract_text env.pdf pdf_path with
  | .error e => (.error e, [])
  | .ok pdf_data =>
      let doc_metadata := built_doc_metadata env pdf_path document_id pdf_data
      let chunks := built_chunks env pdf_path document_id pdf_data
      match env.vs_add collection_name chunks did with
      | .error e => (.error e, [])
      | .ok _ =>
          let destination := env.uploads_dir ++ "/" ++ did ++ ".pdf"
          (.ok { document_id := did,
                 filename := pathName pdf_path,
                 num_pages := pdf_data.num_pages,
                 num_chunks := chunks.length,
                 metadata := doc_metadata,
                 collection := collection_name,
                 status := "success" },
           if pdf_path = destination then [] else [destination])

/-! ## Concrete instances used by witnesses -/

/-- A parsed document whose fitz metadata carries no title. -/
def fitzNoTitle : FitzDoc := { pageTexts := ["hello"], metadata := some [] }

/-- A parser environment where the file exists and parses as `fitzNoTitle`. -/
def okPdfEnv : PdfEnv :=
  { file_exists := fun _ => true, fitz_open := fun _ => .ok fitzNoTitle }

/-- The `PdfData` that `PDFParser.extract_text` returns under `okPdfEnv`. -/
def samplePdfData : PdfData :=
  { text := "hello",
    pages := [{ page_number := 1, text := "hello" }],
    metadata :=
      [("title", Value.str ""), ("author", Value.str ""),
       ("subject", Value.str ""), ("creator", Value.str "")],
    num_pages := 1 }

/-- A processor environment whose index write always fails. -/
def envIndexFail : ProcEnv :=
  { pdf := okPdfEnv,
    vs_add := fun _ _ _ => .error "index write failed",
    now := "2026-01-01T00:00:00",
    uploads_dir := "uploads" }

/-- A processor environment whose index write succeeds. -/
def envOk : ProcEnv :=
  { pdf := okPdfEnv,
    vs_add := fun _ _ _ => .ok (),
    now := "2026-01-01T00:00:00",
    uploads_dir := "uploads" }

/-- The empty vector store. -/
def emptyStore : StoreState := ⟨[]⟩

/-- A trivial external query capability returning no rows. -/
def trivialCollQuery : CollectionData → String → Nat → Option Dict → RawQueryOutput :=
  fun _ _ _ _ => ⟨[], [], [], []⟩

/-- A deterministic streaming stub: fixed fragments for every message list. -/
def sampleStream : List Message → List String := fun _ => ["Hel", "", "lo"]

/-- A deterministic generation capability whose blocking completion is the
concatenation of its streamed fragments. -/
def sampleLLM : LLM :=
  { invokeContent := fun ms => concat_strings (sampleStream ms),
    streamChunks := sampleStream }

/-! ## Dictionary lemmas -/

theorem pyGet_set_eq (d : Dict) (k : String) (v : Value) :
    pyGet (Dict.set d k v) k = some v := by
  induction d with
  | nil => simp [Dict.set, pyGet]
  | cons kv rest ih =>
      obtain ⟨k0, v0⟩ := kv
      by_cases h : k0 = k
      · simp [Dict.set, pyGet, h]
      · simp [Dict.set, pyGet, h, ih]

theorem pyGet_set_ne (d : Dict) (k k0 : String) (v : Value) (h : k0 ≠ k) :
    pyGet (Dict.set d k0 v) k = pyGet d k := by
  induction d with
  | nil => simp [Dict.set, pyGet, h]
  | cons kv rest ih =>
      obtain ⟨k1, v1⟩ := kv
      by_cases h1 : k1 = k0
      · subst h1
        simp [Dict.set, pyGet, h]
      · by_cases h2 : k1 = k
        · simp [Dict.set, pyGet, h1, h2, Ne.symm h]
        · simp [Dict.set, pyGet, h1, h2, ih]

theorem pyGet_eq_none_iff (d : Dict) (k : String) :
    pyGet d k = Option.none ↔ ∀ kv ∈ d, kv.1 ≠ k := by
  induction d with
  | nil => simp [pyGet]
  | cons kv rest ih =>
      obtain ⟨k0, v0⟩ := kv
      by_cases h : k0 = k
      · simp [pyGet, h]
      · simp [pyGet, h, ih]

theorem pyGet_dictMerge_of_not_mem (base : Dict) (over : Dict) (k : String)
    (h : ∀ kv ∈ over, kv.1 ≠ k) :
    pyGet (dictMerge base over) k = pyGet base k := by
  induction over generalizing base with
  | nil => simp [dictMerge]
  | cons kv rest ih =>
      have hk : kv.1 ≠ k := h kv (List.mem_cons_self kv rest)
      have hrest : ∀ kv2 ∈ rest, kv2.1 ≠ k := fun kv2 hm => h kv2 (List.mem_cons_of_mem kv hm)
      show pyGet (dictMerge (Dict.set base kv.1 kv.2) rest) k = pyGet base k
      rw [ih (Dict.set base kv.1 kv.2) hrest, pyGet_set_ne base k kv.1 kv.2 hk]

/-! ## Chunker lemmas -/

theorem mkChunkMeta_chunk_id (md : Dict) (pn : Int) (cid : Nat)
    (h : Dict.hasKey md "chunk_id" = false) :
    pyGet (mkChunkMeta md pn cid) "chunk_id" = some (Value.int cid) := by
  have hnone : pyGet md "chunk_id" = Option.none := by
    cases hp : pyGet md "chunk_id" with
    | none => rfl
    | some v => rw [Dict.hasKey, hp] at h; cases h
  have hmem := (pyGet_eq_none_iff md "chunk_id").mp hnone
  rw [mkChunkMeta, pyGet_dictMerge_of_not_mem _ _ _ hmem]
  simp [pyGet]

theorem passagesOfPage_length (md : Dict) (pn : Int) :
    ∀ (ts : List String) (c : Nat), (passagesOfPage md pn ts c).length = ts.length := by
  intro ts
  induction ts with
  | nil => intro c; rfl
  | cons t rest ih => intro c; simp [passagesOfPage, ih]

theorem passagesOfPage_chunk_ids (md : Dict) (pn : Int)
    (h : Dict.hasKey md "chunk_id" = false) :
    ∀ (ts : List String) (c : Nat),
      (passagesOfPage md pn ts c).map (fun p => pyGet p.metadata "chunk_id")
        = (List.range' c ts.length).map (fun n : Nat => some (Value.int n)) := by
  intro ts
  induction ts with
  | nil => intro c; rfl
  | cons t rest ih =>
      intro c
      simp [passagesOfPage, List.range'_succ, mkChunkMeta_chunk_id md pn c h, ih]

theorem range_one_append (s m n : Nat) :
    List.range' s m ++ List.range' (s + m) n = List.range' s (m + n) := by
  have h := List.range'_append s m n 1
  rw [Nat.one_mul] at h
  rw [h, Nat.add_comm]

theorem chunkPagesGo_chunk_ids (split : String → List String) (md : Dict)
    (h : Dict.hasKey md "chunk_id" = false) :
    ∀ (pages : List Page) (c : Nat),
      (chunkPagesGo split md pages c).map (fun p => pyGet p.metadata "chunk_id")
        = (List.range' c (chunkPagesGo split md pages c).length).map
            (fun n : Nat => some (Value.int n)) := by
  intro pages
  induction pages with
  | nil => intro c; rfl
  | cons p rest ih =>
      intro c
      have hgo : chunkPagesGo split md (p :: rest) c
          = passagesOfPage md p.page_number (split p.text) c
            ++ chunkPagesGo split md rest (c + (split p.text).length) := rfl
      rw [hgo, List.map_append, passagesOfPage_chunk_ids md p.page_number h, ih,
        ← List.map_append, List.length_append, passagesOfPage_length,
        range_one_append]

/-! ## RAG lemmas -/

theorem concat_strings_filter_ne (l : List String) :
    concat_strings (l.filter (fun c => c ≠ "")) = concat_strings l := by
  induction l with
  | nil => rfl
  | cons s rest ih =>
      simp only [decide_not] at ih ⊢
      by_cases h : s = ""
      · subst h
        simp [List.filter_cons, concat_strings, ih, String.empty_append]
      · simp [List.filter_cons, h, concat_strings, ih]

theorem extract_sources_go_eq (chunks : List Dict) :
    ∀ seen : List (Value × Value),
      extract_sources_go seen chunks
        = (dedup_first_by_key seen
            (chunks.filter (fun c => ((pyGet c "page_number").getD Value.none).truthy))).map
          mkSourceEntry := by
  induction chunks with
  | nil => intro seen; rfl
  | cons c rest ih =>
      intro seen
      by_cases ht : ((pyGet c "page_number").getD Value.none).truthy = true
      · by_cases hm : chunk_source_key c ∈ seen
        · simp [extract_sources_go, List.filter_cons, ht, dedup_first_by_key, hm, ih]
        · simp [extract_sources_go, List.filter_cons, ht, dedup_first_by_key, hm, ih]
      · have ht2 : ((pyGet c "page_number").getD Value.none).truthy = false := by
          revert ht
          cases ((pyGet c "page_number").getD Value.none).truthy <;> simp
        simp [extract_sources_go, List.filter_cons, ht2, ih]

theorem format_context_parts_total :
    ∀ (chunks : List Dict) (i : Nat), (∀ c ∈ chunks, (pyGet c "text").isSome = true) →
      ∃ ps, format_context_parts i chunks = .ok ps := by
  intro chunks
  induction chunks with
  | nil => intro i h; exact ⟨[], rfl⟩
  | cons c rest ih =>
      intro i h
      have hc : (pyGet c "text").isSome = true := h c (List.mem_cons_self c rest)
      obtain ⟨t, ht⟩ : ∃ t, pyGet c "text" = some t := by
        cases hx : pyGet c "text" with
        | none => rw [hx] at hc; cases hc
        | some t => exact ⟨t, rfl⟩
      obtain ⟨ps, hps⟩ := ih (i + 1) (fun c2 hm => h c2 (List.mem_cons_of_mem c hm))
      exact ⟨("[Source " ++ toString i ++ " - "
            ++ pyStr ((pyGet c "filename").getD (Value.str "Unknown")) ++ ", Page "
            ++ pyStr ((pyGet c "page_number").getD (Value.str "N/A")) ++ "]\n"
            ++ pyStr t) :: ps,
        by simp [format_context_parts, ht, hps]⟩

/-! ## Store lemmas -/

theorem alistGet_update_self {α : Type} (l : List (String × α)) (k : String) (v : α)
    (c0 : α) (h : alistGet l k = some c0) :
    alistGet (alistUpdate l k v) k = some v := by
  induction l with
  | nil => cases h
  | cons kv rest ih =>
      obtain ⟨k0, v0⟩ := kv
      by_cases h0 : k0 = k
      · simp [alistUpdate, h0, alistGet]
      · rw [alistGet, if_neg h0] at h
        simp [alistUpdate, h0, alistGet, ih h]

theorem alistGet_update_ne {α : Type} (l : List (String × α)) (k k2 : String) (v : α)
    (h : k2 ≠ k) :
    alistGet (alistUpdate l k v) k2 = alistGet l k2 := by
  induction l with
  | nil => rfl
  | cons kv rest ih =>
      obtain ⟨k0, v0⟩ := kv
      by_cases h0 : k0 = k
      · subst h0
        simp [alistUpdate, alistGet, Ne.symm h]
      · by_cases h2 : k0 = k2
        · simp [alistUpdate, alistGet, h0, h2, h]
        · simp [alistUpdate, alistGet, h0, h2, ih]

theorem alistUpdate_update {α : Type} (l : List (String × α)) (k : String) (v1 v2 : α) :
    alistUpdate (alistUpdate l k v1) k v2 = alistUpdate l k v2 := by
  induction l with
  | nil => rfl
  | cons kv rest ih =>
      obtain ⟨k0, v0⟩ := kv
      by_cases h0 : k0 = k
      · simp [alistUpdate, h0]
      · simp [alistUpdate, h0, ih]

theorem alistGet_append_missing {α : Type} (l : List (String × α)) (k : String) (v : α)
    (h : alistGet l k = Option.none) :
    alistGet (l ++ [(k, v)]) k = some v := by
  induction l with
  | nil => simp [alistGet]
  | cons kv rest ih =>
      obtain ⟨k0, v0⟩ := kv
      by_cases h0 : k0 = k
      · rw [alistGet, if_pos h0] at h
        cases h
      · rw [alistGet, if_neg h0] at h
        simp [alistGet, h0, ih h]

theorem chromaDeleteWhere_idem (c : CollectionData) (document_id : String) :
    chromaDeleteWhere (chromaDeleteWhere c document_id) document_id
      = chromaDeleteWhere c document_id := by
  simp [chromaDeleteWhere, List.filter_filter, Bool.and_self]

theorem create_collection_get (st : StoreState) (collection_name : String) :
    ∃ c, alistGet (VectorStore.create_collection st collection_name false).collections
        collection_name = some c := by
  cases h : alistGet st.collections collection_name with
  | some c => exact ⟨c, by simp [VectorStore.create_collection, h]⟩
  | none =>
      exact ⟨⟨[]⟩, by simp [VectorStore.create_collection, h,
        alistGet_append_missing st.collections collection_name _ h]⟩

theorem prepared_entries_get? (document_id : String) :
    ∀ (chunks : List Passage) (n i : Nat),
      (prepared_entries document_id chunks n).get? i
        = (chunks.get? i).map (fun ch => prepared_entry document_id (n + i) ch) := by
  intro chunks
  induction chunks with
  | nil => intro n i; simp [prepared_entries]
  | cons ch rest ih =>
      intro n i
      cases i with
      | zero => simp [prepared_entries]
      | succ j =>
          have h1 : (prepared_entries document_id (ch :: rest) n).get? (j + 1)
              = (prepared_entries document_id rest (n + 1)).get? j := rfl
          have h2 : (ch :: rest).get? (j + 1) = rest.get? j := rfl
          rw [h1, h2, ih (n + 1) j]
          have harith : n + 1 + j = n + (j + 1) := by omega
          rw [harith]

theorem prepared_entry_fields (document_id : String) (i : Nat) (ch : Passage) :
    (prepared_entry document_id i ch).id = document_id ++ "_chunk_" ++ toString i
    ∧ pyGet (prepared_entry document_id i ch).metadata "document_id"
        = some (Value.str document_id)
    ∧ pyGet (prepared_entry document_id i ch).metadata "chunk_index"
        = some (Value.int i) := by
  refine ⟨rfl, ?_, ?_⟩
  · show pyGet (Dict.set (Dict.set ch.metadata "document_id" (Value.str document_id))
        "chunk_index" (Value.int i)) "document_id" = some (Value.str document_id)
    rw [pyGet_set_ne _ _ _ _ (by decide), pyGet_set_eq]
  · exact pyGet_set_eq _ _ _

theorem prepared_entries_all_match (document_id : String) :
    ∀ (chunks : List Passage) (n : Nat),
      ∀ e ∈ prepared_entries document_id chunks n,
        passage_matches_document e document_id = true := by
  intro chunks
  induction chunks with
  | nil => intro n e he; cases he
  | cons ch rest ih =>
      intro n e he
      rcases List.mem_cons.mp he with he | he
      · subst he
        have h2 := (prepared_entry_fields document_id n ch).2.1
        simp [passage_matches_document, h2]
      · exact ih (n + 1) e he

/-! ## Claim C1 -/

set_option maxRecDepth 10000

/-- Claim C1: in `PDFProcessor.process_pdf` indexing strictly precedes
archival — when the `add_documents` step raises, the error propagates and
this call performs no archive write under `uploads/\x7bdocument_id\x7d.pdf`. -/
theorem process_pdf_index_failure_leaves_no_archive
    (env : ProcEnv) (pdf_path : String) (document_id : Option String)
    (collection_name : String) (pdf_data : PdfData) (e : String)
    (hx : PDFParser.extract_text env.pdf pdf_path = .ok pdf_data)
    (ha : env.vs_add collection_name (built_chunks env pdf_path document_id pdf_data)
        (resolved_id pdf_path document_id) = .error e) :
    PDFProcessor.process_pdf env pdf_path document_id collection_name = (.error e, []) := by
  unfold PDFProcessor.process_pdf
  rw [hx]
  dsimp only
  rw [ha]

/-- Witness for C1: a concrete environment whose index write fails; the
call returns the propagated error and the list of archive writes is empty. -/
theorem process_pdf_index_failure_leaves_no_archive_witness :
    PDFProcessor.process_pdf envIndexFail "docs/mydoc.pdf" Option.none "documents"
      = (.error "index write failed", []) :=
  process_pdf_index_failure_leaves_no_archive envIndexFail "docs/mydoc.pdf" Option.none
    "documents" samplePdfData "index write failed" rfl rfl

/-! ## Claim C2 -/

/-- Claim C2 counterexample: the claim quantifies over every document
metadata mapping, but `chunk_pages` spreads `doc_metadata` after the
`chunk_id` key, so a doc metadata containing a `chunk_id` key overwrites the
counter: with two one-chunk pages and doc metadata `\x7b"chunk_id": 99\x7d` the
stored values are `[99, 99]`, not `[0, 1]`. -/
theorem chunk_pages_doc_metadata_overwrites_chunk_id :
    (TextChunker.chunk_pages defaultSplit
        [{ page_number := 1, text := "a" }, { page_number := 1, text := "b" }]
        (some [("chunk_id", Value.int 99)])).map (fun p => pyGet p.metadata "chunk_id")
      = [some (Value.int 99), some (Value.int 99)]
    ∧ [some (Value.int 99), some (Value.int 99)] ≠ [some (Value.int 0), some (Value.int 1)] := by
  constructor
  · rfl
  · decide

/-- Claim C2 (amended): for every splitter, page list and document metadata
mapping that does not itself contain a `chunk_id` key, the `chunk_id` values
stored in the metadata of the returned passages are exactly `0, 1, 2, ...`
in output order — shared across pages and never reset. -/
theorem chunk_pages_chunk_ids_strictly_increasing
    (split : String → List String) (pages : List Page) (doc_metadata : Option Dict)
    (h : Dict.hasKey (doc_metadata.getD []) "chunk_id" = false) :
    (TextChunker.chunk_pages split pages doc_metadata).map
        (fun p => pyGet p.metadata "chunk_id")
      = (List.range (TextChunker.chunk_pages split pages doc_metadata).length).map
          (fun n : Nat => some (Value.int n)) := by
  rw [List.range_eq_range']
  exact chunkPagesGo_chunk_ids split (doc_metadata.getD []) h pages 0

/-- Witness for C2 (amended) at a concrete page list and metadata mapping
without a `chunk_id` key. -/
theorem chunk_pages_chunk_ids_strictly_increasing_witness :
    (TextChunker.chunk_pages defaultSplit [{ page_number := 1, text := "a" }]
        (some [("filename", Value.str "f")])).map (fun p => pyGet p.metadata "chunk_id")
      = (List.range (TextChunker.chunk_pages defaultSplit [{ page_number := 1, text := "a" }]
          (some [("filename", Value.str "f")])).length).map (fun n : Nat => some (Value.int n)) :=
  chunk_pages_chunk_ids_strictly_increasing defaultSplit
    [{ page_number := 1, text := "a" }] (some [("filename", Value.str "f")]) (by decide)

/-! ## Claim C3 -/

/-- Claim C3: for identical inputs and a deterministic generation capability
(blocking completion = concatenation of streamed fragments), consuming
`generate_answer_stream` to exhaustion ends with the sources element carrying
the same sources and context count as `generate_answer`, every earlier
element is a content element, and the concatenation of their data equals the
blocking answer. -/
theorem generate_answer_stream_matches_generate_answer
    (llm : LLM) (query : String) (context_chunks : List Dict)
    (conversation_history : Option (List Turn)) (ctx : String)
    (hdet : ∀ ms, llm.invokeContent ms = concat_strings (llm.streamChunks ms))
    (hfc : RAGService.format_context context_chunks = .ok ctx) :
    ∃ res items,
      RAGService.generate_answer llm query context_chunks conversation_history = .ok res
      ∧ RAGService.generate_answer_stream llm query context_chunks conversation_history
          = .ok items
      ∧ items.getLast? = some (StreamItem.sources res.sources res.context_used)
      ∧ (∀ it ∈ items.dropLast, ∃ s, it = StreamItem.content s)
      ∧ concat_strings (items.dropLast.map stream_item_text) = res.answer := by
  refine ⟨{ answer := llm.invokeContent
              (build_messages conversation_history (build_prompt ctx query)),
            sources := RAGService.extract_sources context_chunks,
            context_used := context_chunks.length },
          ((llm.streamChunks (build_messages conversation_history (build_prompt ctx query))).filter
              (fun c => c ≠ "")).map StreamItem.content
            ++ [StreamItem.sources (RAGService.extract_sources context_chunks)
                  context_chunks.length],
          ?_, ?_, ?_, ?_, ?_⟩
  · simp [RAGService.generate_answer, hfc]
  · simp [RAGService.generate_answer_stream, hfc]
  · simp [List.getLast?_concat]
  · intro it hit
    rw [List.dropLast_concat] at hit
    obtain ⟨s, _, hs⟩ := List.mem_map.mp hit
    exact ⟨s, hs.symm⟩
  · rw [List.dropLast_concat, List.map_map]
    have hcomp : stream_item_text ∘ StreamItem.content = id := rfl
    rw [hcomp, List.map_id, concat_strings_filter_ne, ← hdet]

/-- Witness for C3 with a concrete deterministic stub streaming
`["Hel", "", "lo"]` and an empty context. -/
theorem generate_answer_stream_matches_generate_answer_witness :
    ∃ res items,
      RAGService.generate_answer sampleLLM "q" [] Option.none = .ok res
      ∧ RAGService.generate_answer_stream sampleLLM "q" [] Option.none = .ok items
      ∧ items.getLast? = some (StreamItem.sources res.sources res.context_used)
      ∧ (∀ it ∈ items.dropLast, ∃ s, it = StreamItem.content s)
      ∧ concat_strings (items.dropLast.map stream_item_text) = res.answer :=
  generate_answer_stream_matches_generate_answer sampleLLM "q" [] Option.none
    "No relevant context found in the documents." (fun _ => rfl) rfl

/-! ## Claim C4 -/

/-- Claim C4 counterexample: the code keeps a chunk only when its
`page_number` is Python-truthy, so a chunk whose `page_number` is present but
`0` contributes no source entry, although the claim — quantified over every
chunk list and keyed on presence — says it contributes one. -/
theorem extract_sources_drops_present_zero_page :
    RAGService.extract_sources
        [[("document_id", Value.str "doc1"), ("page_number", Value.int 0)]] = []
    ∧ pyGet [("document_id", Value.str "doc1"), ("page_number", Value.int 0)] "page_number"
        = some (Value.int 0) := by
  constructor
  · rfl
  · rfl

/-- Claim C4 (amended): the sources list equals, in retrieval order, the
first occurrence per distinct `(document_id, page_number)` key among the
chunks whose `page_number` is truthy (present and neither `None`, `0` nor
`""`); chunks with a falsy page number contribute nothing. -/
theorem extract_sources_dedups_truthy_pages (context_chunks : List Dict) :
    RAGService.extract_sources context_chunks = sources_spec context_chunks :=
  extract_sources_go_eq context_chunks []

/-! ## Claim C5 -/

/-- Claim C5: a single page whose non-empty text fits within the configured
chunk size yields exactly one passage carrying the page text verbatim, and an
empty page yields no passages (splitter modelled from spec §4.1). -/
theorem chunk_pages_short_page_single_passage (pn : Int) (t : String) (md : Option Dict)
    (h1 : t ≠ "") (h2 : t.length ≤ Config.CHUNK_SIZE) :
    (TextChunker.chunk_pages defaultSplit [{ page_number := pn, text := t }] md).map
        Passage.text = [t]
    ∧ TextChunker.chunk_pages defaultSplit [{ page_number := pn, text := "" }] md = [] := by
  constructor
  · simp [TextChunker.chunk_pages, chunkPagesGo, defaultSplit, split_text, h1, h2,
      passagesOfPage]
  · simp [TextChunker.chunk_pages, chunkPagesGo, defaultSplit, split_text, passagesOfPage]

/-- Witness for C5 at the two-character page `"hi"`. -/
theorem chunk_pages_short_page_single_passage_witness :
    (TextChunker.chunk_pages defaultSplit [{ page_number := 1, text := "hi" }]
        Option.none).map Passage.text = ["hi"]
    ∧ TextChunker.chunk_pages defaultSplit [{ page_number := 1, text := "" }]
        Option.none = [] :=
  chunk_pages_short_page_single_passage 1 "hi" Option.none (by decide) (by decide)

/-! ## Claim C6 -/

/-- Claim C6: `VectorStore.query` against a collection name absent from the
store returns the empty result dictionary
`\x7bdocuments: [], metadatas: [], distances: [], ids: []\x7d` and no error,
for every query text, result count and filter. -/
theorem query_missing_collection_returns_empty
    (collQuery : CollectionData → String → Nat → Option Dict → RawQueryOutput)
    (st : StoreState) (collection_name query_text : String) (n_results : Nat)
    (filter_dict : Option Dict)
    (h : alistGet st.collections collection_name = Option.none) :
    VectorStore.query collQuery st collection_name query_text n_results filter_dict
      = { documents := [], metadatas := [], distances := [], ids := [] } := by
  simp [VectorStore.query, h]

/-- Witness for C6 on the empty store. -/
theorem query_missing_collection_returns_empty_witness :
    VectorStore.query trivialCollQuery emptyStore "documents" "what" 5 Option.none
      = { documents := [], metadatas := [], distances := [], ids := [] } :=
  query_missing_collection_returns_empty trivialCollQuery emptyStore "documents" "what" 5
    Option.none rfl

/-! ## Claim C7 -/

/-- Claim C7 (code bug): for a PDF whose extracted metadata carries no title,
`process_pdf` stores the empty string as the title — never the filename stem,
because `PDFParser.extract_text` always inserts a `"title"` key (defaulting to
`""`), which makes the `pdf_path.stem` default of
`pdf_data["metadata"].get("title", pdf_path.stem)` unreachable. -/
theorem process_pdf_missing_title_yields_empty_not_stem :
    ((PDFProcessor.process_pdf envOk "docs/mydoc.pdf" Option.none "documents").1.toOption.map
        (fun r => pyGet r.metadata "title")) = some (some (Value.str ""))
    ∧ pathStem "docs/mydoc.pdf" = "mydoc"
    ∧ Value.str "" ≠ Value.str "mydoc" := by
  refine ⟨?_, ?_, ?_⟩
  · rfl
  · rfl
  · decide

/-! ## Claim C8 -/

/-- Claim C8: `VectorStore.delete_document` is total and best-effort — an
absent collection or a failing external delete leaves the state unchanged,
a successful delete keeps exactly the passages whose metadata `document_id`
differs from the given id (other collections untouched), and a successful
repeat of the call is a no-op (idempotence). -/
theorem delete_document_best_effort (delete_fails : Bool) (st : StoreState)
    (collection_name document_id : String) :
    (alistGet st.collections collection_name = Option.none →
        VectorStore.delete_document delete_fails st collection_name document_id = st)
    ∧ (delete_fails = true →
        VectorStore.delete_document delete_fails st collection_name document_id = st)
    ∧ (∀ c, alistGet st.collections collection_name = some c → delete_fails = false →
        alistGet (VectorStore.delete_document delete_fails st collection_name
            document_id).collections collection_name
            = some (chromaDeleteWhere c document_id)
          ∧ (∀ p ∈ c.passages,
              p ∈ (chromaDeleteWhere c document_id).passages
                ↔ ¬ pyGet p.metadata "document_id" = some (Value.str document_id))
          ∧ (∀ other, other ≠ collection_name →
              alistGet (VectorStore.delete_document delete_fails st collection_name
                  document_id).collections other
                = alistGet st.collections other))
    ∧ VectorStore.delete_document false
        (VectorStore.delete_document false st collection_name document_id)
        collection_name document_id
        = VectorStore.delete_document false st collection_name document_id := by
  refine ⟨?_, ?_, ?_, ?_⟩
  · intro h
    simp [VectorStore.delete_document, h]
  · intro h
    subst h
    cases halist : alistGet st.collections collection_name with
    | none => simp [VectorStore.delete_document, halist]
    | some c => simp [VectorStore.delete_document, halist]
  · intro c hc hf
    subst hf
    refine ⟨?_, ?_, ?_⟩
    · simp only [VectorStore.delete_document, hc, if_neg Bool.false_ne_true]
      exact alistGet_update_self st.collections collection_name _ c hc
    · intro p hp
      simp [chromaDeleteWhere, List.mem_filter, hp, passage_matches_document]
    · intro other ho
      simp only [VectorStore.delete_document, hc, if_neg Bool.false_ne_true]
      exact alistGet_update_ne st.collections collection_name other _ ho
  · cases halist : alistGet st.collections collection_name with
    | none => simp [VectorStore.delete_document, halist]
    | some c =>
        have h1 : VectorStore.delete_document false st collection_name document_id
            = ⟨alistUpdate st.collections collection_name
                (chromaDeleteWhere c document_id)⟩ := by
          simp [VectorStore.delete_document, halist]
        have h2 : alistGet (alistUpdate st.collections collection_name
            (chromaDeleteWhere c document_id)) collection_name
            = some (chromaDeleteWhere c document_id) :=
          alistGet_update_self st.collections collection_name _ c halist
        rw [h1]
        simp [VectorStore.delete_document, h2, chromaDeleteWhere_idem, alistUpdate_update]

/-- Witness for C8: deleting from the empty store is a no-op. -/
theorem delete_document_best_effort_witness :
    VectorStore.delete_document false emptyStore "documents" "doc1" = emptyStore :=
  (delete_document_best_effort false emptyStore "documents" "doc1").1 rfl

/-! ## Claim C9 -/

/-- Claim C9: every passage upserted by `add_documents` has id
`\x7bdocument_id\x7d_chunk_\x7bi\x7d` for its batch position `i`, and metadata whose
`document_id` and `chunk_index` equal the given id and position, overwriting
any such keys in the chunk's own metadata; hence every upserted passage
matches the delete-by-`document_id` filter. -/
theorem add_documents_upsert_invariant (st : StoreState) (collection_name : String)
    (chunks : List Passage) (document_id : String) :
    (∃ old, alistGet (VectorStore.add_documents st collection_name chunks
        document_id).collections collection_name
        = some ⟨old ++ prepared_entries document_id chunks 0⟩)
    ∧ (∀ i, (prepared_entries document_id chunks 0).get? i
        = (chunks.get? i).map (fun ch => prepared_entry document_id i ch))
    ∧ (∀ ch i, (prepared_entry document_id i ch).id = document_id ++ "_chunk_" ++ toString i
        ∧ pyGet (prepared_entry document_id i ch).metadata "document_id"
            = some (Value.str document_id)
        ∧ pyGet (prepared_entry document_id i ch).metadata "chunk_index"
            = some (Value.int i))
    ∧ (∀ e ∈ prepared_entries document_id chunks 0,
        passage_matches_document e document_id = true) := by
  refine ⟨?_, ?_, ?_, ?_⟩
  · obtain ⟨c, hc⟩ := create_collection_get st collection_name
    refine ⟨c.passages, ?_⟩
    simp only [VectorStore.add_documents, hc]
    exact alistGet_update_self _ collection_name _ c hc
  · intro i
    simpa using prepared_entries_get? document_id chunks 0 i
  · intro ch i
    exact prepared_entry_fields document_id i ch
  · exact prepared_entries_all_match document_id chunks 0

/-- Witness for C9: the `chunk_index` of a prepared entry overwrites a stale
`chunk_index` key carried by the chunk's own metadata. -/
theorem add_documents_upsert_invariant_witness :
    pyGet (prepared_entry "doc" 0
        { text := "hi", metadata := [("chunk_index", Value.str "stale")] }).metadata
      "chunk_index" = some (Value.int 0) :=
  ((add_documents_upsert_invariant emptyStore "documents"
      [{ text := "hi", metadata := [("chunk_index", Value.str "stale")] }] "doc").2.2.1
    { text := "hi", metadata := [("chunk_index", Value.str "stale")] } 0).2.2

/-! ## Claim C10 -/

/-- Claim C10 counterexample: a chunk whose `page_number` key is present with
value `None` renders as `Page None` — not `Page N/A` as the claim states,
since `chunk.get("page_number", "N/A")` defaults only on a missing key. -/
theorem format_context_renders_none_for_present_none :
    RAGService.format_context [[("text", Value.str "t"), ("page_number", Value.none)]]
      = .ok "[Source 1 - Unknown, Page None]\nt"
    ∧ ("[Source 1 - Unknown, Page None]\nt" : String)
        ≠ "[Source 1 - Unknown, Page N/A]\nt" := by
  constructor
  · rfl
  · decide

/-- Claim C10 (amended): when every chunk carries a `"text"` key,
`format_context` is total (no raise); a chunk whose `page_number` /
`filename` keys are absent renders with the `N/A` / `Unknown` defaults, while
keys present with value `None` render as the literal `None`. -/
theorem format_context_total_with_defaults (context_chunks : List Dict)
    (h : ∀ c ∈ context_chunks, (pyGet c "text").isSome = true) :
    (∃ s, RAGService.format_context context_chunks = .ok s)
    ∧ (∀ (d : Dict) (t : Value), pyGet d "text" = some t →
        pyGet d "page_number" = Option.none → pyGet d "filename" = Option.none →
        RAGService.format_context [d] = .ok ("[Source 1 - Unknown, Page N/A]\n" ++ pyStr t))
    ∧ (∀ (d : Dict) (t : Value), pyGet d "text" = some t →
        pyGet d "page_number" = some Value.none → pyGet d "filename" = some Value.none →
        RAGService.format_context [d]
          = .ok ("[Source 1 - None, Page None]\n" ++ pyStr t)) := by
  refine ⟨?_, ?_, ?_⟩
  · by_cases he : context_chunks.isEmpty
    · exact ⟨"No relevant context found in the documents.",
        by simp [RAGService.format_context, he]⟩
    · obtain ⟨ps, hps⟩ := format_context_parts_total context_chunks 1 h
      exact ⟨String.intercalate "\n\n---\n\n" ps,
        by simp [RAGService.format_context, he, hps]⟩
  · intro d t ht hp hf
    simp [RAGService.format_context, format_context_parts, ht, hp, hf]
    rw [show ∀ s : String, String.intercalate "\n\n---\n\n" [s] = s from fun _ => rfl]
    exact congrArg (fun s => s ++ pyStr t) (by decide)
  · intro d t ht hp hf
    simp [RAGService.format_context, format_context_parts, ht, hp, hf]
    rw [show ∀ s : String, String.intercalate "\n\n---\n\n" [s] = s from fun _ => rfl]
    exact congrArg (fun s => s ++ pyStr t) (by decide)

/-- Witness for C10 (amended) on a one-chunk list carrying only a text key. -/
theorem format_context_total_with_defaults_witness :
    ∃ s, RAGService.format_context [[("text", Value.str "hi")]] = .ok s :=
  (format_context_total_with_defaults [[("text", Value.str "hi")]] (by decide)).1

end StuddyBuddy
